import Mathlib

/-!
Shallow embedding of the domain-wide sharing audit pipeline of
`convex/googleDrive.ts`: credential initialization, directory listing,
per-user public-file scanning, the audit orchestrator, and the audit /
connection store operations, together with proofs of the specification's
testable properties.

External services (the directory API and the file-storage API) are
modelled by the streams of page responses they would return: each page is
either an error or a payload that may or may not carry an item list,
mirroring `response.data.users` / `response.data.files` being possibly
undefined.  The pagination loop (`do ... while (pageToken)`) walks the
stream to its end, which models following continuation tokens until none
is returned; an error page models the corresponding `await` throwing.

The `GOOGLE_SERVICE_ACCOUNT_KEY` environment variable composed with
`JSON.parse` is modelled by `EnvSecret`: absent, present-but-malformed
(`JSON.parse` throws), or valid parsed credentials.

Convex store state is passed explicitly: a table is a list of records in
insertion order (ascending `_creationTime`), `.order("desc")` is
`List.reverse`, `.first()` is `List.find?`, `.insert` appends, `.patch`
maps over the table replacing the record with the matching id.
-/

namespace GoogleDrive

/-- Parsed service-account key material (`credentials.client_email`,
`credentials.private_key`). -/
structure Credentials where
  client_email : String
  private_key : String
deriving Repr, DecidableEq

/-- The `GOOGLE_SERVICE_ACCOUNT_KEY` environment variable as seen through
`JSON.parse`: absent, present but not valid structured-key material, or
valid. -/
inductive EnvSecret where
  | absent : EnvSecret
  | malformed : EnvSecret
  | valid (creds : Credentials) : EnvSecret
deriving Repr, DecidableEq

/-- The fixed scope list `SCOPES`. -/
def SCOPES : List String :=
  [ "https://www.googleapis.com/auth/admin.directory.users.readonly"
  , "https://www.googleapis.com/auth/drive.metadata.readonly"
  , "https://www.googleapis.com/auth/drive.readonly"
  , "https://www.googleapis.com/auth/spreadsheets"
  , "https://www.googleapis.com/auth/drive.file" ]

/-- A `google.auth.JWT` value: client email, private key, scopes and the
impersonated subject. -/
structure JWTAuth where
  clientEmail : String
  privateKey : String
  scopes : List String
  subject : String
deriving Repr, DecidableEq

/-- Error message of the explicit presence check on
`process.env.GOOGLE_SERVICE_ACCOUNT_KEY`. -/
def keyRequiredMsg : String :=
  "GOOGLE_SERVICE_ACCOUNT_KEY environment variable is required"

/-- Error message of `JSON.parse` failing on the secret value. -/
def jsonParseMsg : String := "Unexpected token in JSON"

/-- `initializeDriveService`: checks the environment variable is present,
parses it, and builds a JWT auth impersonating `adminUser`.  The `domain`
argument is accepted but unused, as in the source. -/
def initializeDriveService (secret : EnvSecret) (domain adminUser : String) :
    Except String JWTAuth :=
  match secret with
  | .absent => .error keyRequiredMsg
  | .malformed => .error jsonParseMsg
  | .valid creds =>
      .ok ⟨creds.client_email, creds.private_key, SCOPES, adminUser⟩

/-- `initializeAdminService`: identical structure to
`initializeDriveService` (Admin SDK instead of Drive). -/
def initializeAdminService (secret : EnvSecret) (domain adminUser : String) :
    Except String JWTAuth :=
  match secret with
  | .absent => .error keyRequiredMsg
  | .malformed => .error jsonParseMsg
  | .valid creds =>
      .ok ⟨creds.client_email, creds.private_key, SCOPES, adminUser⟩

/-- One page response of a paginated external API call: the call either
throws (carrying a message) or returns a payload whose item list may be
absent (`response.data.users` / `response.data.files` undefined). -/
abbrev Page (α : Type) := Except String (Option (List α))

/-- Whether a page response succeeded. -/
def pageOk {α : Type} : Page α → Bool
  | .ok _ => true
  | .error _ => false

/-- The pagination loop shared by `getDomainUsers`' `do/while`: push each
page's items (when present) onto the accumulator, following continuation
tokens to the end of the stream; a throwing page aborts the whole loop. -/
def collectPages {α : Type} : List (Page α) → List α → Except String (List α)
  | [], acc => .ok acc
  | .error e :: _, _ => .error e
  | .ok none :: rest, acc => collectPages rest acc
  | .ok (some xs) :: rest, acc => collectPages rest (acc ++ xs)

/-- `user.name` in a raw directory response (`user.name?.fullName`). -/
structure RawName where
  fullName : Option String
deriving Repr, DecidableEq

/-- A raw user object from the Admin SDK directory listing. -/
structure RawDirectoryUser where
  primaryEmail : String
  name : Option RawName
  id : String
  suspended : Bool
deriving Repr, DecidableEq

/-- The mapped user shape returned by `getDomainUsers`. -/
structure DirectoryUser where
  email : String
  name : Option String
  id : String
  suspended : Bool
deriving Repr, DecidableEq

/-- `getDomainUsers`: initialize the Admin SDK, page through
`admin.users.list`, and map each raw user to
`{email, name, id, suspended}`.  Any thrown error is caught and
re-thrown as `Failed to fetch domain users: ...`. -/
def getDomainUsers (secret : EnvSecret) (domain adminUser : String)
    (pages : List (Page RawDirectoryUser)) : Except String (List DirectoryUser) :=
  match initializeAdminService secret domain adminUser with
  | .error e => .error ("Failed to fetch domain users: " ++ e)
  | .ok _ =>
      match collectPages pages [] with
      | .error e => .error ("Failed to fetch domain users: " ++ e)
      | .ok users =>
          .ok (users.map fun u =>
            ⟨u.primaryEmail, u.name.bind RawName.fullName, u.id, u.suspended⟩)

/-- A permission entry of a Drive file; `role` and `domain` may be
absent. -/
structure Permission where
  type : String
  role : Option String
  domain : Option String
deriving Repr, DecidableEq

/-- An entry of a Drive file's `owners` list. -/
structure Owner where
  emailAddress : Option String
deriving Repr, DecidableEq

/-- A raw file object from `drive.files.list` with the requested fields;
every field past `id`/`name` may be absent. -/
structure DriveFile where
  id : String
  name : String
  webViewLink : Option String
  modifiedTime : Option String
  permissions : Option (List Permission)
  owners : Option (List Owner)
deriving Repr, DecidableEq

/-- The client-side filter of `getPubliclySharedFiles`:
`file.permissions?.some(p => p.type === "anyone" || (p.type === "domain"
&& p.domain === args.domain))`.  A file with no `permissions` list is
excluded (the optional chain yields a falsy value). -/
def isPublicFile (domain : String) (f : DriveFile) : Bool :=
  match f.permissions with
  | none => false
  | some ps => ps.any fun p =>
      p.type == "anyone" || (p.type == "domain" && p.domain == some domain)

/-- `file.owners?.[0]?.emailAddress || args.userEmail`: the impersonated
user's email stands in whenever the optional chain yields a falsy value —
absent `owners`, empty `owners`, absent `emailAddress`, or an empty-string
`emailAddress` (the empty string is falsy). -/
def ownerField (f : DriveFile) (userEmail : String) : String :=
  match f.owners with
  | none => userEmail
  | some [] => userEmail
  | some (o :: _) =>
      match o.emailAddress with
      | none => userEmail
      | some e => if e == "" then userEmail else e

/-- The mapped file record returned by `getPubliclySharedFiles`. -/
structure FileResult where
  id : String
  name : String
  webViewLink : Option String
  modifiedTime : Option String
  owner : String
  permissions : Option (List Permission)
deriving Repr, DecidableEq

/-- The final `files.map(...)` of `getPubliclySharedFiles`. -/
def mapFile (userEmail : String) (f : DriveFile) : FileResult :=
  { id := f.id
  , name := f.name
  , webViewLink := f.webViewLink
  , modifiedTime := f.modifiedTime
  , owner := ownerField f userEmail
  , permissions := f.permissions.map (List.map fun p => ⟨p.type, p.role, p.domain⟩) }

/-- The `do/while` loop of `getPubliclySharedFiles`: each successful page's
files are filtered by the client-side permission check and appended; a
throwing page aborts the loop. -/
def scanPages (domain : String) : List (Page DriveFile) → List DriveFile →
    Except String (List DriveFile)
  | [], acc => .ok acc
  | .error e :: _, _ => .error e
  | .ok none :: rest, acc => scanPages domain rest acc
  | .ok (some fs) :: rest, acc =>
      scanPages domain rest (acc ++ fs.filter (isPublicFile domain))

/-- `getPubliclySharedFiles`: build a JWT impersonating `userEmail`
directly from `JSON.parse(process.env.GOOGLE_SERVICE_ACCOUNT_KEY!)` (an
absent or malformed secret makes `JSON.parse` throw — there is no explicit
presence check here), page through the visibility-filtered file search,
filter client-side, and map.  Any thrown error is caught and re-thrown as
`Failed to fetch files for <user>: ...`.  `adminUser` is accepted but
unused, as in the source. -/
def getPubliclySharedFiles (secret : EnvSecret) (domain adminUser userEmail : String)
    (pages : List (Page DriveFile)) : Except String (List FileResult) :=
  match secret with
  | .absent =>
      .error ("Failed to fetch files for " ++ userEmail ++ ": " ++ jsonParseMsg)
  | .malformed =>
      .error ("Failed to fetch files for " ++ userEmail ++ ": " ++ jsonParseMsg)
  | .valid _ =>
      match scanPages domain pages [] with
      | .error e =>
          .error ("Failed to fetch files for " ++ userEmail ++ ": " ++ e)
      | .ok files => .ok (files.map (mapFile userEmail))

/-- One `auditResults` entry of `runDomainAudit`. -/
structure UserAuditResult where
  user : String
  userName : Option String
  fileCount : Nat
  files : List FileResult
deriving Repr, DecidableEq

/-- A persisted `driveAudits` row. -/
structure AuditRecord where
  domain : String
  totalUsers : Nat
  totalFiles : Nat
  results : List UserAuditResult
  createdAt : Nat
deriving Repr, DecidableEq

/-- `storeAuditResults`: append-only insert into the `driveAudits` table;
the returned id is the row's index. -/
def storeAuditResults (db : List AuditRecord) (domain : String)
    (totalUsers totalFiles : Nat) (results : List UserAuditResult) (now : Nat) :
    Nat × List AuditRecord :=
  (db.length, db ++ [⟨domain, totalUsers, totalFiles, results, now⟩])

/-- The per-user loop of `runDomainAudit`: skip suspended users; on a
successful scan add the file count to the running total and append a
result entry when the count is positive; on a thrown scan error continue
with the next user.  `filePages` gives, per impersonated email, the file
service's page stream for that user. -/
def auditLoop (secret : EnvSecret) (domain adminUser : String)
    (filePages : String → List (Page DriveFile)) :
    List DirectoryUser → List UserAuditResult → Nat →
    List UserAuditResult × Nat
  | [], acc, totalFiles => (acc, totalFiles)
  | u :: rest, acc, totalFiles =>
      if u.suspended then
        auditLoop secret domain adminUser filePages rest acc totalFiles
      else
        match getPubliclySharedFiles secret domain adminUser u.email (filePages u.email) with
        | .ok userFiles =>
            if userFiles.length > 0 then
              auditLoop secret domain adminUser filePages rest
                (acc ++ [⟨u.email, u.name, userFiles.length, userFiles⟩])
                (totalFiles + userFiles.length)
            else
              auditLoop secret domain adminUser filePages rest acc
                (totalFiles + userFiles.length)
        | .error _ =>
            auditLoop secret domain adminUser filePages rest acc totalFiles

/-- The value returned by `runDomainAudit` on success. -/
structure AuditSummary where
  auditId : Nat
  totalUsers : Nat
  usersWithPublicFiles : Nat
  totalFiles : Nat
  results : List UserAuditResult
deriving Repr, DecidableEq

/-- `runDomainAudit`: list the directory, audit each user, store the
aggregate, and return the summary.  A directory-listing failure is
re-thrown as `Domain audit failed: ...` and nothing is stored — the second
component is the `driveAudits` table after the call. -/
def runDomainAudit (secret : EnvSecret) (domain adminUser : String)
    (dirPages : List (Page RawDirectoryUser))
    (filePages : String → List (Page DriveFile))
    (db : List AuditRecord) (now : Nat) :
    Except String AuditSummary × List AuditRecord :=
  match getDomainUsers secret domain adminUser dirPages with
  | .error e => (.error ("Domain audit failed: " ++ e), db)
  | .ok users =>
      let pair := auditLoop secret domain adminUser filePages users [] 0
      let stored := storeAuditResults db domain users.length pair.2 pair.1 now
      (.ok ⟨stored.1, users.length, pair.1.length, pair.2, pair.1⟩, stored.2)

/-- `getAuditHistory`: `if (args.domain)` is JavaScript truthiness, so the
filtered branch runs only for a present, non-empty domain; either branch
orders by creation time descending and takes 50. -/
def getAuditHistory (db : List AuditRecord) (domain : Option String) :
    List AuditRecord :=
  match domain with
  | some d =>
      if d == "" then (db.reverse).take 50
      else ((db.filter fun a => a.domain == d).reverse).take 50
  | none => (db.reverse).take 50

/-- A persisted `driveConnections` row, with its Convex id made
explicit. -/
structure ConnRecord where
  id : Nat
  userId : String
  domain : String
  adminEmail : String
  isActive : Bool
  createdAt : Nat
deriving Repr, DecidableEq

/-- `createDriveConnection`: look for an existing `(userId, domain)` row
(`.first()` in creation order); patch its `adminEmail`/`isActive` and
return its id when found, else insert a fresh active row.  `freshId` is
the id Convex would assign to a new row. -/
def createDriveConnection (db : List ConnRecord) (freshId : Nat)
    (userId domain adminEmail : String) (now : Nat) : Nat × List ConnRecord :=
  match db.find? (fun c => c.userId == userId && c.domain == domain) with
  | some existing =>
      (existing.id,
       db.map fun c =>
         if c.id == existing.id then
           { c with adminEmail := adminEmail, isActive := true }
         else c)
  | none =>
      (freshId, db ++ [⟨freshId, userId, domain, adminEmail, true, now⟩])

/-- The value returned by `testDriveConnection`; `userCount` is present
only on success. -/
structure TestResult where
  success : Bool
  message : String
  userCount : Option Nat
deriving Repr, DecidableEq

/-- `testDriveConnection`: explicit presence check on the secret, then a
single one-result directory page; every thrown error is converted into
`{success: false, message: ...}` rather than re-thrown. -/
def testDriveConnection (secret : EnvSecret) (domain adminUser : String)
    (page : Page RawDirectoryUser) : TestResult :=
  match secret with
  | .absent => ⟨false, "Connection failed: " ++ keyRequiredMsg, none⟩
  | _ =>
      match initializeAdminService secret domain adminUser with
      | .error e => ⟨false, "Connection failed: " ++ e, none⟩
      | .ok _ =>
          match page with
          | .error e => ⟨false, "Connection failed: " ++ e, none⟩
          | .ok users =>
              ⟨true, "Successfully connected to Google Drive API",
               some (match users with | some l => l.length | none => 0)⟩

/-! ### Specification-side definitions

These restate conditions in the words of the specification, for comparison
with the code-side definitions above. -/

/-- Spec wording: a file is publicly reachable iff at least one of its
permission entries has grantee type `anyone`, or grantee type `domain`
with the domain field equal to the audited domain.  A file with no
permission list has no entries. -/
def hasPublicEntry (auditedDomain : String) (f : DriveFile) : Bool :=
  (f.permissions.getD []).any fun p =>
    p.type == "anyone" || (p.type == "domain" && p.domain == some auditedDomain)

/-- All items the external service handed back across the successful pages
of a stream, in response order. -/
def served {α : Type} : List (Page α) → List α
  | [] => []
  | .ok (some xs) :: rest => xs ++ served rest
  | .ok none :: rest => served rest
  | .error _ :: rest => served rest

/-- Sum of `fileCount` over a result sequence. -/
def sumFileCount (rs : List UserAuditResult) : Nat :=
  (rs.map UserAuditResult.fileCount).sum

/-- Spec wording of the orchestrator's result sequence: one entry per
non-suspended user whose scan succeeded with at least one file, in
directory order; suspended users and failed or empty scans contribute no
entry. -/
def scanResultsSpec (secret : EnvSecret) (domain adminUser : String)
    (filePages : String → List (Page DriveFile)) (users : List DirectoryUser) :
    List UserAuditResult :=
  users.filterMap fun u =>
    if u.suspended then none
    else
      match getPubliclySharedFiles secret domain adminUser u.email (filePages u.email) with
      | .ok fs =>
          if fs.length > 0 then some ⟨u.email, u.name, fs.length, fs⟩ else none
      | .error _ => none

/-- Spec wording of the orchestrator's file total: the sum, over
non-suspended users only, of the size of each successful scan (a failed
scan contributes zero). -/
def scanTotalSpec (secret : EnvSecret) (domain adminUser : String)
    (filePages : String → List (Page DriveFile)) (users : List DirectoryUser) :
    Nat :=
  ((users.filter fun u => !u.suspended).map fun u =>
    match getPubliclySharedFiles secret domain adminUser u.email (filePages u.email) with
    | .ok fs => fs.length
    | .error _ => 0).sum

/-- The first owner's email address when the owners list is present and
non-empty and that address is present and non-empty; `none` otherwise. -/
def firstOwnerTruthyEmail (f : DriveFile) : Option String :=
  match f.owners with
  | some (o :: _) =>
      match o.emailAddress with
      | some e => if e == "" then none else some e
      | none => none
  | _ => none

/-- A stored record used by the C9 counterexample. -/
def exAuditOther : AuditRecord := ⟨"other.com", 1, 0, [], 3⟩

/-- A file used by the C10 counterexample: its owners list is present and
non-empty but the first entry's email address is the empty string. -/
def exFileEmptyOwnerEmail : DriveFile :=
  ⟨"f9", "Doc", none, none, some [⟨"anyone", none, none⟩], some [⟨some ""⟩]⟩

/-! ### Concrete scenario used by the witnesses

A domain with three directory users — Alice and Bob active, Sue suspended.
Alice's scan serves one public and one private file; Bob's scan throws. -/

/-- Parsed key material for the witness scenario. -/
def exCreds : Credentials :=
  ⟨"svc@project.iam.gserviceaccount.com", "private-key-material"⟩

/-- Alice's raw directory entry. -/
def exRawAlice : RawDirectoryUser :=
  ⟨"alice@example.com", some ⟨some "Alice A"⟩, "101", false⟩

/-- Sue's raw directory entry (suspended). -/
def exRawSue : RawDirectoryUser := ⟨"sue@example.com", none, "102", true⟩

/-- Bob's raw directory entry. -/
def exRawBob : RawDirectoryUser :=
  ⟨"bob@example.com", some ⟨some "Bob B"⟩, "103", false⟩

/-- The directory service's single page for the scenario. -/
def exDirPages : List (Page RawDirectoryUser) :=
  [.ok (some [exRawAlice, exRawSue, exRawBob])]

/-- A file shared with anyone. -/
def exFilePub : DriveFile :=
  ⟨"f1", "Quarterly report", some "https://drive.example/f1", some "2024-05-01",
   some [⟨"anyone", some "reader", none⟩],
   some [⟨some "alice@example.com"⟩]⟩

/-- A file with only a user-specific permission. -/
def exFilePriv : DriveFile :=
  ⟨"f2", "Draft", none, none, some [⟨"user", some "writer", none⟩], none⟩

/-- The file service's page streams: Alice's scan succeeds, Bob's throws. -/
def exFilePages (email : String) : List (Page DriveFile) :=
  if email == "alice@example.com" then [.ok (some [exFilePub, exFilePriv])]
  else if email == "bob@example.com" then [.error "rate limit exceeded"]
  else [.ok none]

/-- The directory users as decoded by `getDomainUsers`. -/
def exUsers : List DirectoryUser :=
  [⟨"alice@example.com", some "Alice A", "101", false⟩,
   ⟨"sue@example.com", none, "102", true⟩,
   ⟨"bob@example.com", some "Bob B", "103", false⟩]

/-- Alice's public file as mapped by `getPubliclySharedFiles`. -/
def exFileResult : FileResult :=
  ⟨"f1", "Quarterly report", some "https://drive.example/f1", some "2024-05-01",
   "alice@example.com", some [⟨"anyone", some "reader", none⟩]⟩

/-- The scenario's persisted result sequence. -/
def exResults : List UserAuditResult :=
  [⟨"alice@example.com", some "Alice A", 1, [exFileResult]⟩]

/-- The scenario's returned summary. -/
def exSummary : AuditSummary := ⟨0, 3, 1, 1, exResults⟩

/-- The scenario's store after the run. -/
def exDb2 : List AuditRecord := [⟨"example.com", 3, 1, exResults, 0⟩]

/-- Alice's scan page stream, for the C2 witness. -/
def exScanPages : List (Page DriveFile) := [.ok (some [exFilePub, exFilePriv])]

/-- A two-record store in ascending creation order, for the C9 witness. -/
def exHistDb : List AuditRecord := [⟨"a.com", 1, 0, [], 1⟩, ⟨"b.com", 2, 0, [], 2⟩]

/-! ### Helper lemmas -/

/-- The code's client-side filter agrees with the spec's permission-entry
condition on every file. -/
theorem isPublicFile_eq_hasPublicEntry (d : String) (f : DriveFile) :
    isPublicFile d f = hasPublicEntry d f := by
  cases h : f.permissions <;> simp [isPublicFile, hasPublicEntry, h]

/-- When every page succeeds, the scan loop returns the served files that
pass the client-side filter, appended to the accumulator. -/
theorem scanPages_ok (d : String) :
    ∀ (pages : List (Page DriveFile)), (∀ p ∈ pages, pageOk p = true) →
    ∀ acc, scanPages d pages acc =
      .ok (acc ++ (served pages).filter (isPublicFile d))
  | [], _, acc => by simp [scanPages, served]
  | .error e :: rest, h, acc => by
      have := h (.error e) (by simp)
      simp [pageOk] at this
  | .ok none :: rest, h, acc => by
      have ih := scanPages_ok d rest (fun p hp => h p (by simp [hp])) acc
      simpa [scanPages, served] using ih
  | .ok (some fs) :: rest, h, acc => by
      have ih := scanPages_ok d rest (fun p hp => h p (by simp [hp]))
        (acc ++ fs.filter (isPublicFile d))
      simp only [scanPages, served, List.filter_append] at ih ⊢
      rw [ih, List.append_assoc]

/-- A failing page anywhere in the stream makes the collection loop throw,
whatever was accumulated before. -/
theorem collectPages_error {α : Type} :
    ∀ (pages : List (Page α)), (∃ p ∈ pages, pageOk p = false) →
    ∀ acc, ∃ e, collectPages pages acc = .error e
  | [], h, _ => by simp at h
  | .error e :: _, _, acc => ⟨e, rfl⟩
  | .ok none :: rest, h, acc => by
      have : ∃ p ∈ rest, pageOk p = false := by
        rcases h with ⟨p, hp, hfalse⟩
        rcases List.mem_cons.mp hp with heq | hmem
        · subst heq; simp [pageOk] at hfalse
        · exact ⟨p, hmem, hfalse⟩
      exact collectPages_error rest this acc
  | .ok (some xs) :: rest, h, acc => by
      have : ∃ p ∈ rest, pageOk p = false := by
        rcases h with ⟨p, hp, hfalse⟩
        rcases List.mem_cons.mp hp with heq | hmem
        · subst heq; simp [pageOk] at hfalse
        · exact ⟨p, hmem, hfalse⟩
      exact collectPages_error rest this (acc ++ xs)

/-- Closed form of the orchestrator's per-user loop: it appends exactly the
spec's result sequence and adds exactly the spec's file total. -/
theorem auditLoop_eq (secret : EnvSecret) (domain adminUser : String)
    (filePages : String → List (Page DriveFile)) :
    ∀ (users : List DirectoryUser) (acc : List UserAuditResult) (total : Nat),
    auditLoop secret domain adminUser filePages users acc total =
      (acc ++ scanResultsSpec secret domain adminUser filePages users,
       total + scanTotalSpec secret domain adminUser filePages users)
  | [], acc, total => by simp [auditLoop, scanResultsSpec, scanTotalSpec]
  | u :: rest, acc, total => by
      by_cases hs : u.suspended
      · have ih := auditLoop_eq secret domain adminUser filePages rest acc total
        simp [auditLoop, scanResultsSpec, scanTotalSpec, hs, List.filterMap_cons] at ih ⊢
        exact ih
      · cases hscan : getPubliclySharedFiles secret domain adminUser u.email
            (filePages u.email) with
        | error e =>
            have ih := auditLoop_eq secret domain adminUser filePages rest acc total
            simp [auditLoop, scanResultsSpec, scanTotalSpec, hs, hscan,
              List.filterMap_cons] at ih ⊢
            exact ih
        | ok fs =>
            by_cases hlen : fs.length > 0
            · have ih := auditLoop_eq secret domain adminUser filePages rest
                (acc ++ [⟨u.email, u.name, fs.length, fs⟩]) (total + fs.length)
              have hstep : auditLoop secret domain adminUser filePages (u :: rest) acc total
                  = auditLoop secret domain adminUser filePages rest
                      (acc ++ [⟨u.email, u.name, fs.length, fs⟩]) (total + fs.length) := by
                simp [auditLoop, hs, hscan, hlen]
              have hspec : scanResultsSpec secret domain adminUser filePages (u :: rest)
                  = ⟨u.email, u.name, fs.length, fs⟩ ::
                    scanResultsSpec secret domain adminUser filePages rest := by
                simp [scanResultsSpec, List.filterMap_cons, hs, hscan, hlen]
              have htot : scanTotalSpec secret domain adminUser filePages (u :: rest)
                  = fs.length + scanTotalSpec secret domain adminUser filePages rest := by
                simp [scanTotalSpec, hs, hscan]
              rw [hstep, ih, hspec, htot]
              simp only [Prod.mk.injEq]
              constructor
              · simp
              · omega
            · have ih := auditLoop_eq secret domain adminUser filePages rest acc
                (total + fs.length)
              have hfs : fs.length = 0 := by omega
              simp [auditLoop, scanResultsSpec, scanTotalSpec, hs, hscan, hlen,
                List.filterMap_cons, hfs] at ih ⊢
              exact ih

/-- The spec's file total is the sum of `fileCount` over the spec's result
sequence. -/
theorem sumFileCount_scanResultsSpec (secret : EnvSecret)
    (domain adminUser : String) (filePages : String → List (Page DriveFile)) :
    ∀ users : List DirectoryUser,
    sumFileCount (scanResultsSpec secret domain adminUser filePages users) =
      scanTotalSpec secret domain adminUser filePages users
  | [] => by simp [scanResultsSpec, scanTotalSpec, sumFileCount]
  | u :: rest => by
      have ih := sumFileCount_scanResultsSpec secret domain adminUser filePages rest
      by_cases hs : u.suspended
      · simp [scanResultsSpec, scanTotalSpec, sumFileCount, hs,
          List.filterMap_cons] at ih ⊢
        exact ih
      · cases hscan : getPubliclySharedFiles secret domain adminUser u.email
            (filePages u.email) with
        | error e =>
            simp [scanResultsSpec, scanTotalSpec, sumFileCount, hs, hscan,
              List.filterMap_cons] at ih ⊢
            exact ih
        | ok fs =>
            by_cases hlen : fs.length > 0
            · simp [scanResultsSpec, scanTotalSpec, sumFileCount, hs, hscan, hlen,
                List.filterMap_cons] at ih ⊢
              omega
            · have hfs : fs.length = 0 := by omega
              simp [scanResultsSpec, scanTotalSpec, sumFileCount, hs, hscan, hlen,
                List.filterMap_cons, hfs] at ih ⊢
              exact ih

/-- A failed directory listing makes `runDomainAudit` re-throw and leave
the store untouched. -/
theorem runDomainAudit_error (secret : EnvSecret) (domain adminUser : String)
    (dirPages : List (Page RawDirectoryUser))
    (filePages : String → List (Page DriveFile))
    (db : List AuditRecord) (now : Nat) (e : String)
    (hd : getDomainUsers secret domain adminUser dirPages = .error e) :
    runDomainAudit secret domain adminUser dirPages filePages db now =
      (.error ("Domain audit failed: " ++ e), db) := by
  unfold runDomainAudit
  rw [hd]

/-- Closed form of a successful `runDomainAudit`: the summary and the
stored record are built from the spec's result sequence and file total. -/
theorem runDomainAudit_ok (secret : EnvSecret) (domain adminUser : String)
    (dirPages : List (Page RawDirectoryUser))
    (filePages : String → List (Page DriveFile))
    (db : List AuditRecord) (now : Nat) (users : List DirectoryUser)
    (hd : getDomainUsers secret domain adminUser dirPages = .ok users) :
    runDomainAudit secret domain adminUser dirPages filePages db now =
      (.ok ⟨db.length, users.length,
            (scanResultsSpec secret domain adminUser filePages users).length,
            scanTotalSpec secret domain adminUser filePages users,
            scanResultsSpec secret domain adminUser filePages users⟩,
       db ++ [⟨domain, users.length,
               scanTotalSpec secret domain adminUser filePages users,
               scanResultsSpec secret domain adminUser filePages users, now⟩]) := by
  unfold runDomainAudit
  rw [hd]
  simp [auditLoop_eq, storeAuditResults]

/-- Whatever the secret, a failing page anywhere in the directory stream
makes `getDomainUsers` throw. -/
theorem getDomainUsers_error_of_page (secret : EnvSecret)
    (domain adminUser : String) (dirPages : List (Page RawDirectoryUser))
    (hfail : ∃ p ∈ dirPages, pageOk p = false) :
    ∃ e, getDomainUsers secret domain adminUser dirPages =
      .error ("Failed to fetch domain users: " ++ e) := by
  cases secret with
  | absent => exact ⟨keyRequiredMsg, rfl⟩
  | malformed => exact ⟨jsonParseMsg, rfl⟩
  | valid creds =>
      obtain ⟨e, he⟩ := collectPages_error dirPages hfail []
      refine ⟨e, ?_⟩
      unfold getDomainUsers initializeAdminService
      rw [he]

/-- C1: for every AuditRun constructed and persisted by `runDomainAudit`,
the stored `totalFiles` equals the sum of `fileCount` over the entries of
its `results` sequence (and the returned summary satisfies the same
equation). -/
theorem c1_totalFiles_eq_sum (secret : EnvSecret) (domain adminUser : String)
    (dirPages : List (Page RawDirectoryUser))
    (filePages : String → List (Page DriveFile))
    (db : List AuditRecord) (now : Nat) (s : AuditSummary)
    (db2 : List AuditRecord)
    (h : runDomainAudit secret domain adminUser dirPages filePages db now
      = (.ok s, db2)) :
    ∃ r, db2 = db ++ [r] ∧ r.totalFiles = sumFileCount r.results ∧
      s.totalFiles = sumFileCount s.results := by
  cases hd : getDomainUsers secret domain adminUser dirPages with
  | error e =>
      rw [runDomainAudit_error secret domain adminUser dirPages filePages db now e hd] at h
      simp at h
  | ok users =>
      rw [runDomainAudit_ok secret domain adminUser dirPages filePages db now users hd] at h
      simp only [Prod.mk.injEq, Except.ok.injEq] at h
      obtain ⟨hs, hdb⟩ := h
      subst hs
      exact ⟨_, hdb.symm,
        (sumFileCount_scanResultsSpec secret domain adminUser filePages users).symm,
        (sumFileCount_scanResultsSpec secret domain adminUser filePages users).symm⟩

/-- C3: when the directory listing succeeds, `runDomainAudit` completes
and persists a record whatever scan errors individual users hit — in
particular when at least one non-suspended user's scan throws — and the
persisted results are the spec's per-user results (one entry per
non-suspended user whose scan succeeded with files). -/
theorem c3_scan_failure_never_aborts (secret : EnvSecret)
    (domain adminUser : String) (dirPages : List (Page RawDirectoryUser))
    (filePages : String → List (Page DriveFile))
    (db : List AuditRecord) (now : Nat) (users : List DirectoryUser)
    (hdir : getDomainUsers secret domain adminUser dirPages = .ok users)
    (hfail : ∃ u ∈ users, u.suspended = false ∧
      ∃ e, getPubliclySharedFiles secret domain adminUser u.email
        (filePages u.email) = .error e) :
    ∃ s r, runDomainAudit secret domain adminUser dirPages filePages db now
        = (.ok s, db ++ [r]) ∧
      r.results = scanResultsSpec secret domain adminUser filePages users ∧
      s.results = r.results := by
  exact ⟨_, _,
    runDomainAudit_ok secret domain adminUser dirPages filePages db now users hdir,
    rfl, rfl⟩

/-- C4: if any directory page request errors, `runDomainAudit` surfaces a
failure to the caller (with the directory-unavailable cause in the
message) and the audit store is unchanged. -/
theorem c4_directory_failure_aborts (secret : EnvSecret)
    (domain adminUser : String) (dirPages : List (Page RawDirectoryUser))
    (filePages : String → List (Page DriveFile))
    (db : List AuditRecord) (now : Nat)
    (hfail : ∃ p ∈ dirPages, pageOk p = false) :
    (∃ e, (runDomainAudit secret domain adminUser dirPages filePages db now).1
        = .error ("Domain audit failed: Failed to fetch domain users: " ++ e)) ∧
    (runDomainAudit secret domain adminUser dirPages filePages db now).2 = db := by
  obtain ⟨e, he⟩ := getDomainUsers_error_of_page secret domain adminUser dirPages hfail
  rw [runDomainAudit_error secret domain adminUser dirPages filePages db now _ he]
  refine ⟨⟨e, ?_⟩, rfl⟩
  rw [← String.append_assoc]
  rfl

/-- C5: suspended users count toward `totalUsers` (which is the length of
the full directory listing), every `results` entry corresponds to a
non-suspended directory user, and `totalFiles` is a sum over non-suspended
users only. -/
theorem c5_suspended_users (secret : EnvSecret) (domain adminUser : String)
    (dirPages : List (Page RawDirectoryUser))
    (filePages : String → List (Page DriveFile))
    (db : List AuditRecord) (now : Nat) (users : List DirectoryUser)
    (s : AuditSummary) (db2 : List AuditRecord)
    (hdir : getDomainUsers secret domain adminUser dirPages = .ok users)
    (hrun : runDomainAudit secret domain adminUser dirPages filePages db now
      = (.ok s, db2)) :
    s.totalUsers = users.length ∧
    (∀ res ∈ s.results, ∃ u ∈ users, u.suspended = false ∧ res.user = u.email) ∧
    s.totalFiles = scanTotalSpec secret domain adminUser filePages users := by
  rw [runDomainAudit_ok secret domain adminUser dirPages filePages db now users hdir]
    at hrun
  simp only [Prod.mk.injEq, Except.ok.injEq] at hrun
  obtain ⟨hs, hdb⟩ := hrun
  subst hs
  refine ⟨rfl, ?_, rfl⟩
  intro res hres
  obtain ⟨u, hu, hf⟩ := List.mem_filterMap.mp hres
  by_cases hsus : u.suspended
  · simp [hsus] at hf
  · cases hscan : getPubliclySharedFiles secret domain adminUser u.email
        (filePages u.email) with
    | error e => simp [hsus, hscan] at hf
    | ok fs =>
        by_cases hlen : fs.length > 0
        · simp [hsus, hscan, hlen] at hf
          exact ⟨u, hu, by simpa using hsus, by rw [← hf]⟩
        · simp [hsus, hscan, hlen] at hf

/-- C2: when every page succeeds, a served file appears in the scan's
result (as its mapped record) iff at least one of its permission entries
has type `anyone` or type `domain` with the audited domain; the result is
exactly the served files passing that test, in order, so files failing it
are excluded even though the server-side visibility search returned
them. -/
theorem c2_public_permission_filter (creds : Credentials)
    (domain adminUser userEmail : String) (pages : List (Page DriveFile))
    (hok : ∀ p ∈ pages, pageOk p = true) :
    getPubliclySharedFiles (.valid creds) domain adminUser userEmail pages =
      .ok (((served pages).filter (hasPublicEntry domain)).map (mapFile userEmail)) ∧
    (∀ f ∈ served pages, hasPublicEntry domain f = true →
      mapFile userEmail f ∈
        ((served pages).filter (hasPublicEntry domain)).map (mapFile userEmail)) ∧
    (∀ g ∈ ((served pages).filter (hasPublicEntry domain)).map (mapFile userEmail),
      ∃ f ∈ served pages, hasPublicEntry domain f = true ∧ g = mapFile userEmail f) := by
  have hfilter : (served pages).filter (isPublicFile domain)
      = (served pages).filter (hasPublicEntry domain) :=
    List.filter_congr fun f _ => isPublicFile_eq_hasPublicEntry domain f
  refine ⟨?_, ?_, ?_⟩
  · unfold getPubliclySharedFiles
    rw [scanPages_ok domain pages hok [], hfilter]
    rfl
  · intro f hf hpub
    exact List.mem_map_of_mem _ (List.mem_filter.mpr ⟨hf, hpub⟩)
  · intro g hg
    obtain ⟨f, hf, hmap⟩ := List.mem_map.mp hg
    exact ⟨f, (List.mem_filter.mp hf).1, (List.mem_filter.mp hf).2, hmap.symm⟩

/-- `List.find?` skips a prefix on which the predicate is everywhere
false. -/
theorem find?_append_false {α : Type} (p : α → Bool) :
    ∀ (l1 l2 : List α), (∀ x ∈ l1, p x = false) →
      List.find? p (l1 ++ l2) = List.find? p l2
  | [], _, _ => rfl
  | a :: l1, l2, h => by
      have ha := h a (by simp)
      simp only [List.cons_append, List.find?_cons, ha]
      exact find?_append_false p l1 l2 fun x hx => h x (by simp [hx])

/-- C6: starting from a store with no `(userId, domain)` row (and with
`n1` fresh), calling `createDriveConnection` twice for that pair leaves
exactly one matching row — the first call's insert, patched to the second
call's `adminEmail` with `isActive = true` — and the second call returns
the first call's id instead of inserting. -/
theorem c6_connection_upsert (db : List ConnRecord) (n1 n2 now1 now2 : Nat)
    (userId domain e1 e2 : String)
    (hnone : ∀ c ∈ db, (c.userId == userId && c.domain == domain) = false)
    (hfresh : ∀ c ∈ db, c.id ≠ n1) :
    createDriveConnection (createDriveConnection db n1 userId domain e1 now1).2
        n2 userId domain e2 now2
      = (n1, db ++ [⟨n1, userId, domain, e2, true, now1⟩]) ∧
    (createDriveConnection db n1 userId domain e1 now1).1 = n1 ∧
    ((db ++ [(⟨n1, userId, domain, e2, true, now1⟩ : ConnRecord)]).filter
        (fun c => c.userId == userId && c.domain == domain)).length = 1 ∧
    (db ++ [(⟨n1, userId, domain, e2, true, now1⟩ : ConnRecord)]).length
      = db.length + 1 := by
  have hfind1 : db.find? (fun c => c.userId == userId && c.domain == domain)
      = none :=
    List.find?_eq_none.mpr fun c hc => by simp [hnone c hc]
  have step1 : createDriveConnection db n1 userId domain e1 now1
      = (n1, db ++ [⟨n1, userId, domain, e1, true, now1⟩]) := by
    unfold createDriveConnection
    rw [hfind1]
  have hfind2 :
      (db ++ [(⟨n1, userId, domain, e1, true, now1⟩ : ConnRecord)]).find?
        (fun c => c.userId == userId && c.domain == domain)
      = some ⟨n1, userId, domain, e1, true, now1⟩ := by
    rw [find?_append_false _ db _ hnone]
    simp [List.find?_cons]
  have hmap :
      (db ++ [(⟨n1, userId, domain, e1, true, now1⟩ : ConnRecord)]).map
        (fun c => if c.id == n1 then
            { c with adminEmail := e2, isActive := true } else c)
      = db ++ [⟨n1, userId, domain, e2, true, now1⟩] := by
    rw [List.map_append]
    congr 1
    · have : ∀ c ∈ db,
          (fun c => if c.id == n1 then
            ({ c with adminEmail := e2, isActive := true } : ConnRecord) else c) c
          = id c := by
        intro c hc
        simp [Nat.ne_of_beq_eq_false, hfresh c hc]
      rw [List.map_congr_left this, List.map_id]
    · simp
  have step2 : createDriveConnection
      (db ++ [(⟨n1, userId, domain, e1, true, now1⟩ : ConnRecord)]) n2
        userId domain e2 now2
      = (n1, db ++ [⟨n1, userId, domain, e2, true, now1⟩]) := by
    unfold createDriveConnection
    rw [hfind2]
    exact congrArg _ hmap
  refine ⟨?_, ?_, ?_, by simp⟩
  · rw [step1]
    exact step2
  · rw [step1]
  · rw [List.filter_append]
    have : db.filter (fun c => c.userId == userId && c.domain == domain) = [] :=
      List.filter_eq_nil_iff.mpr fun c hc => by simp [hnone c hc]
    rw [this]
    simp

/-- C7: an absent or malformed signing-key secret makes the directory
listing and the per-user file scan throw, and makes the connection test
report failure — the configuration error is surfaced by every
credential-issuing audit operation. -/
theorem c7_missing_key_is_fatal (secret : EnvSecret)
    (h : secret = .absent ∨ secret = .malformed)
    (domain adminUser userEmail : String)
    (dirPages : List (Page RawDirectoryUser))
    (filePages : List (Page DriveFile)) (page : Page RawDirectoryUser) :
    (∃ e, getDomainUsers secret domain adminUser dirPages = .error e) ∧
    (∃ e, getPubliclySharedFiles secret domain adminUser userEmail filePages
      = .error e) ∧
    (testDriveConnection secret domain adminUser page).success = false := by
  rcases h with h | h <;> subst h <;> exact ⟨⟨_, rfl⟩, ⟨_, rfl⟩, rfl⟩

/-- C8 counterexample: a connection-setup call with blank domain and blank
admin identity does not fail — it inserts a row carrying the blanks and
returns its id, so no ValidationError is surfaced and a record is
written. -/
theorem c8_counterexample :
    createDriveConnection [] 7 "owner_1" "" "" 5
      = (7, [⟨7, "owner_1", "", "", true, 5⟩]) := rfl

/-- C8 amended: `createDriveConnection` performs no blank-field
validation; a call with blank domain and blank admin identity always
succeeds, leaving an active matching record with the blank values (blank
fields are rejected only by the dashboard UI before the mutation is
invoked). -/
theorem c8_no_validation (db : List ConnRecord) (freshId : Nat)
    (userId : String) (now : Nat) :
    ∃ c ∈ (createDriveConnection db freshId userId "" "" now).2,
      c.userId = userId ∧ c.domain = "" ∧ c.adminEmail = "" ∧
      c.isActive = true := by
  unfold createDriveConnection
  cases hfind : db.find? (fun c => c.userId == userId && c.domain == "") with
  | none =>
      exact ⟨⟨freshId, userId, "", "", true, now⟩, by simp, rfl, rfl, rfl, rfl⟩
  | some existing =>
      have hmem := List.mem_of_find?_eq_some hfind
      have hpred := List.find?_some hfind
      simp only [Bool.and_eq_true, beq_iff_eq] at hpred
      refine ⟨{ existing with adminEmail := "", isActive := true }, ?_,
        hpred.1, hpred.2, rfl, rfl⟩
      have hself : (fun c => if c.id == existing.id then
          ({ c with adminEmail := "", isActive := true } : ConnRecord) else c)
            existing
          = { existing with adminEmail := "", isActive := true } := by simp
      exact hself ▸ List.mem_map_of_mem _ hmem

/-- C9 counterexample: supplying the empty string as the domain does not
filter at all — `if (args.domain)` is falsy on `""` — so a record whose
domain is `"other.com"` is returned even though it differs from the
supplied domain. -/
theorem c9_counterexample :
    getAuditHistory [exAuditOther] (some "") = [exAuditOther] ∧
    exAuditOther.domain ≠ "" := by
  exact ⟨rfl, by decide⟩

/-- C9 amended: `getAuditHistory` returns at most 50 records, newest-first
by creation timestamp (given the store is in ascending creation order);
for a supplied NON-EMPTY domain the result is exactly the 50 newest
matching records, newest-first — so every returned record's domain equals
it exactly and every stored record with that domain among the 50 newest
matches is included; supplying the empty string behaves exactly like
supplying no domain. -/
theorem c9_history_query (db : List AuditRecord) (d : String)
    (hsorted : db.Pairwise fun a b => a.createdAt ≤ b.createdAt)
    (hd : d ≠ "") :
    (getAuditHistory db (some d)).length ≤ 50 ∧
    (getAuditHistory db none).length ≤ 50 ∧
    (getAuditHistory db (some d)).Pairwise
      (fun a b => b.createdAt ≤ a.createdAt) ∧
    (getAuditHistory db none).Pairwise
      (fun a b => b.createdAt ≤ a.createdAt) ∧
    (∀ r ∈ getAuditHistory db (some d), r.domain = d) ∧
    getAuditHistory db (some d)
      = ((db.filter fun a => a.domain == d).reverse).take 50 ∧
    getAuditHistory db (some "") = getAuditHistory db none := by
  have hbeq : (d == "") = false := by
    cases hb : d == "" with
    | true => exact absurd (by simpa using hb) hd
    | false => rfl
  have hsome : getAuditHistory db (some d)
      = ((db.filter fun a => a.domain == d).reverse).take 50 := by
    simp [getAuditHistory, hbeq]
  have hnone : getAuditHistory db none = (db.reverse).take 50 := rfl
  refine ⟨?_, ?_, ?_, ?_, ?_, ?_, rfl⟩
  · rw [hsome, List.length_take]
    exact min_le_left _ _
  · rw [hnone, List.length_take]
    exact min_le_left _ _
  · rw [hsome]
    exact ((List.pairwise_reverse.mpr (hsorted.filter _)).sublist
      (List.take_sublist _ _)).imp fun h => h
  · rw [hnone]
    exact ((List.pairwise_reverse.mpr hsorted).sublist
      (List.take_sublist _ _)).imp fun h => h
  · intro r hr
    rw [hsome] at hr
    have := List.mem_reverse.mp ((List.take_sublist _ _).subset hr)
    simpa using (List.mem_filter.mp this).2
  · exact hsome

/-- C10 counterexample: for a file whose owners list is present and
non-empty, the mapped owner is NOT the first entry's email address — the
empty string is falsy, so `||` falls back to the impersonated user's
email. -/
theorem c10_counterexample :
    exFileEmptyOwnerEmail.owners = some [⟨some ""⟩] ∧
    (mapFile "scanner@example.com" exFileEmptyOwnerEmail).owner
      = "scanner@example.com" ∧
    "scanner@example.com" ≠ "" := by
  exact ⟨rfl, rfl, by decide⟩

/-- C10 amended: the mapped owner field equals the first owner entry's
email address when the owners list is present and non-empty AND that email
address is present and non-empty; in every other case it equals the
impersonated user's email.  In particular it is populated whenever the
impersonated user's email is. -/
theorem c10_owner_field (u : String) (f : DriveFile) :
    (mapFile u f).owner = (firstOwnerTruthyEmail f).getD u ∧
    (u ≠ "" → (mapFile u f).owner ≠ "") := by
  have howner : (mapFile u f).owner = ownerField f u := rfl
  cases ho : f.owners with
  | none =>
      rw [howner]
      exact ⟨by simp [ownerField, firstOwnerTruthyEmail, ho], fun h => by
        simpa [ownerField, ho] using h⟩
  | some l =>
      cases l with
      | nil =>
          rw [howner]
          exact ⟨by simp [ownerField, firstOwnerTruthyEmail, ho], fun h => by
            simpa [ownerField, ho] using h⟩
      | cons o rest =>
          cases he : o.emailAddress with
          | none =>
              rw [howner]
              exact ⟨by simp [ownerField, firstOwnerTruthyEmail, ho, he],
                fun h => by simpa [ownerField, ho, he] using h⟩
          | some e =>
              by_cases hee : e = ""
              · rw [howner]
                subst hee
                exact ⟨by simp [ownerField, firstOwnerTruthyEmail, ho, he],
                  fun h => by simpa [ownerField, ho, he] using h⟩
              · have hbe : (e == "") = false := by
                  cases hb : e == "" with
                  | true => exact absurd (by simpa using hb) hee
                  | false => rfl
                rw [howner]
                refine ⟨by simp [ownerField, firstOwnerTruthyEmail, ho, he, hbe], ?_⟩
                intro _
                simpa [ownerField, ho, he, hbe] using hee

/-- C1 witness: the scenario run persists one record whose `totalFiles`
sums its `fileCount`s. -/
theorem c1_totalFiles_eq_sum_witness :
    ∃ r, exDb2 = ([] : List AuditRecord) ++ [r] ∧
      r.totalFiles = sumFileCount r.results ∧
      exSummary.totalFiles = sumFileCount exSummary.results :=
  c1_totalFiles_eq_sum (.valid exCreds) "example.com" "admin@example.com"
    exDirPages exFilePages [] 0 exSummary exDb2 (by rfl)

/-- C2 witness: on Alice's served page the scan returns exactly the
permission-filtered, mapped files. -/
theorem c2_public_permission_filter_witness :
    getPubliclySharedFiles (.valid exCreds) "example.com" "admin@example.com"
        "alice@example.com" exScanPages =
      .ok (((served exScanPages).filter (hasPublicEntry "example.com")).map
        (mapFile "alice@example.com")) ∧
    (∀ f ∈ served exScanPages, hasPublicEntry "example.com" f = true →
      mapFile "alice@example.com" f ∈
        ((served exScanPages).filter (hasPublicEntry "example.com")).map
          (mapFile "alice@example.com")) ∧
    (∀ g ∈ ((served exScanPages).filter (hasPublicEntry "example.com")).map
        (mapFile "alice@example.com"),
      ∃ f ∈ served exScanPages, hasPublicEntry "example.com" f = true ∧
        g = mapFile "alice@example.com" f) :=
  c2_public_permission_filter exCreds "example.com" "admin@example.com"
    "alice@example.com" exScanPages
    (by intro p hp; simp [exScanPages] at hp; subst hp; rfl)

/-- C3 witness: Bob's scan throws, yet the scenario run persists a record
with Alice's result. -/
theorem c3_scan_failure_never_aborts_witness :
    ∃ s r, runDomainAudit (.valid exCreds) "example.com" "admin@example.com"
        exDirPages exFilePages ([] : List AuditRecord) 0 = (.ok s, [] ++ [r]) ∧
      r.results = scanResultsSpec (.valid exCreds) "example.com"
        "admin@example.com" exFilePages exUsers ∧
      s.results = r.results :=
  c3_scan_failure_never_aborts (.valid exCreds) "example.com"
    "admin@example.com" exDirPages exFilePages [] 0 exUsers (by rfl)
    ⟨⟨"bob@example.com", some "Bob B", "103", false⟩, by decide, rfl,
      "Failed to fetch files for bob@example.com: rate limit exceeded", by rfl⟩

/-- C4 witness: a failing directory page surfaces an error and leaves the
store (here already holding one record) unchanged. -/
theorem c4_directory_failure_aborts_witness :
    (∃ e, (runDomainAudit (.valid exCreds) "example.com" "admin@example.com"
        [.error "backend error"] exFilePages exDb2 7).1
      = .error ("Domain audit failed: Failed to fetch domain users: " ++ e)) ∧
    (runDomainAudit (.valid exCreds) "example.com" "admin@example.com"
        [.error "backend error"] exFilePages exDb2 7).2 = exDb2 :=
  c4_directory_failure_aborts (.valid exCreds) "example.com"
    "admin@example.com" [.error "backend error"] exFilePages exDb2 7
    ⟨.error "backend error", by simp, rfl⟩

/-- C5 witness: in the scenario, suspended Sue counts toward the user
total, appears in no result entry, and adds nothing to the file total. -/
theorem c5_suspended_users_witness :
    exSummary.totalUsers = exUsers.length ∧
    (∀ res ∈ exSummary.results, ∃ u ∈ exUsers, u.suspended = false ∧
      res.user = u.email) ∧
    exSummary.totalFiles = scanTotalSpec (.valid exCreds) "example.com"
      "admin@example.com" exFilePages exUsers :=
  c5_suspended_users (.valid exCreds) "example.com" "admin@example.com"
    exDirPages exFilePages [] 0 exUsers exSummary exDb2 (by rfl) (by rfl)

/-- C6 witness: two setup calls for the same owner and domain leave one
row with the second admin email, active, under the first call's id. -/
theorem c6_connection_upsert_witness :
    createDriveConnection
        (createDriveConnection ([] : List ConnRecord) 0 "owner_7" "example.com"
          "a@example.com" 10).2 1 "owner_7" "example.com" "b@example.com" 11
      = (0, [] ++ [⟨0, "owner_7", "example.com", "b@example.com", true, 10⟩]) ∧
    (createDriveConnection ([] : List ConnRecord) 0 "owner_7" "example.com"
        "a@example.com" 10).1 = 0 ∧
    ((([] : List ConnRecord) ++
        [(⟨0, "owner_7", "example.com", "b@example.com", true, 10⟩ : ConnRecord)]).filter
        (fun c => c.userId == "owner_7" && c.domain == "example.com")).length = 1 ∧
    (([] : List ConnRecord) ++
        [(⟨0, "owner_7", "example.com", "b@example.com", true, 10⟩ : ConnRecord)]).length
      = ([] : List ConnRecord).length + 1 :=
  c6_connection_upsert [] 0 1 10 11 "owner_7" "example.com" "a@example.com"
    "b@example.com" (by simp) (by simp)

/-- C7 witness: with the secret absent, the directory listing and file
scan throw and the connection test reports failure. -/
theorem c7_missing_key_is_fatal_witness :
    (∃ e, getDomainUsers .absent "example.com" "admin@example.com" exDirPages
      = .error e) ∧
    (∃ e, getPubliclySharedFiles .absent "example.com" "admin@example.com"
      "alice@example.com" exScanPages = .error e) ∧
    (testDriveConnection .absent "example.com" "admin@example.com"
      (.ok (some [exRawAlice]))).success = false :=
  c7_missing_key_is_fatal .absent (Or.inl rfl) "example.com"
    "admin@example.com" "alice@example.com" exDirPages exScanPages
    (.ok (some [exRawAlice]))

/-- C9 witness: the amended history contract at a concrete two-record
store and the non-empty domain filter `"a.com"`. -/
theorem c9_history_query_witness :
    (getAuditHistory exHistDb (some "a.com")).length ≤ 50 ∧
    (getAuditHistory exHistDb none).length ≤ 50 ∧
    (getAuditHistory exHistDb (some "a.com")).Pairwise
      (fun a b => b.createdAt ≤ a.createdAt) ∧
    (getAuditHistory exHistDb none).Pairwise
      (fun a b => b.createdAt ≤ a.createdAt) ∧
    (∀ r ∈ getAuditHistory exHistDb (some "a.com"), r.domain = "a.com") ∧
    getAuditHistory exHistDb (some "a.com")
      = ((exHistDb.filter fun a => a.domain == "a.com").reverse).take 50 ∧
    getAuditHistory exHistDb (some "") = getAuditHistory exHistDb none :=
  c9_history_query exHistDb "a.com" (by decide) (by decide)

/-- C10 witness: the amended owner-field contract at Alice's public
file. -/
theorem c10_owner_field_witness :
    (mapFile "scanner2@example.com" exFilePub).owner
      = (firstOwnerTruthyEmail exFilePub).getD "scanner2@example.com" ∧
    ("scanner2@example.com" ≠ "" →
      (mapFile "scanner2@example.com" exFilePub).owner ≠ "") :=
  c10_owner_field "scanner2@example.com" exFilePub

end GoogleDrive
